import Mathlib

/-!
Verification of the talk2data repository: a shallow embedding of the
schema parser (star-schema join-path resolution), the SQL validator,
the date converter and the multi-table SQL generator, together with
theorems settling the specification claims about them.

Python strings are modelled as Lean `String` (operations are carried
out on the underlying `List Char`).  Python regular-expression scans
are modelled by explicit left-to-right scanners that reproduce the
scanning, greediness and word-boundary semantics of the concrete
patterns appearing in the source.  The character classes are modelled
at ASCII level (the concrete schemas and queries are ASCII).
Ordered Python dicts are modelled as association lists.
The two LLM calls (table selection and SQL generation) are external
inputs; functions that consume their answers take them as parameters.
-/

/-! Section: Character and string utilities -/

/-- ASCII model of the regex class backslash-w: letters, digits, underscore. -/
def isWordChar (c : Char) : Bool :=
  c.isAlphanum || c == '_'

/-- ASCII model of the regex class backslash-s (Python whitespace). -/
def isSpaceChar (c : Char) : Bool :=
  c == ' ' || c == '\t' || c == '\n' || c == '\r' || c == '\x0b' || c == '\x0c'

/-- Lowercasing as used for case-insensitive regex matching; ASCII plus the
only non-ASCII letter appearing in the source patterns (in "märz"). -/
def pyLower (c : Char) : Char :=
  if c == 'Ä' then 'ä' else c.toLower

/-- Python str.upper, ASCII model. -/
def pyUpper (s : String) : String :=
  String.mk (s.data.map Char.toUpper)

/-- Python str.strip: drop whitespace from both ends. -/
def pyStrip (s : String) : String :=
  String.mk (((s.data.dropWhile isSpaceChar).reverse.dropWhile isSpaceChar).reverse)

/-- Python str.startswith. -/
def strStartsWith (s pre : String) : Bool :=
  pre.data.isPrefixOf s.data

/-- Boolean membership of a string in a list (Python `in`). -/
def memS (x : String) : List String → Bool
  | [] => false
  | y :: ys => x == y || memS x ys

/-- Whether `pat` occurs as a contiguous substring of `l` (Python `in` on str). -/
def containsSub (l pat : List Char) : Bool :=
  match l with
  | [] => pat.isEmpty
  | _ :: t => pat.isPrefixOf l || containsSub t pat

/-- Python ", ".join. -/
def joinComma : List String → String
  | [] => ""
  | [s] => s
  | s :: rest => s ++ ", " ++ joinComma rest

/-- Python "; ".join. -/
def joinSemi : List String → String
  | [] => ""
  | [s] => s
  | s :: rest => s ++ "; " ++ joinSemi rest

/-- Python str.replace old-by-new on all non-overlapping occurrences,
scanning left to right (fuelled; the fuel is the length of the text). -/
def replaceSubAux (pat repl : List Char) : Nat → List Char → List Char
  | 0, l => l
  | _, [] => []
  | fuel + 1, c :: rest =>
    if pat.isEmpty then c :: rest
    else if pat.isPrefixOf (c :: rest) then
      repl ++ replaceSubAux pat repl fuel ((c :: rest).drop pat.length)
    else
      c :: replaceSubAux pat repl fuel rest

/-- Python str.replace. -/
def replaceSub (s pat repl : String) : String :=
  String.mk (replaceSubAux pat.data repl.data s.data.length s.data)

/-- Regex word boundary immediately before a word character: holds at the
start of the text or after a non-word character. -/
def boundaryBefore : Option Char → Bool
  | none => true
  | some c => !(isWordChar c)

/-- Regex word boundary immediately after a word character: holds at the
end of the text or before a non-word character. -/
def boundaryAfterOk : List Char → Bool
  | [] => true
  | c :: _ => !(isWordChar c)

/-- Case-insensitive match of a (lowercase) pattern against the front of the
text; returns the remaining text on success. -/
def ciMatchList (pat l : List Char) : Option (List Char) :=
  match pat, l with
  | [], rest => some rest
  | _ :: _, [] => none
  | p :: ps, c :: cs => if pyLower c == p then ciMatchList ps cs else none

/-! Section: schema_parser.py: data model -/

/-- A relationship between 2 tables (`TableRelationship` in schema_parser.py). -/
structure TableRelationship where
  from_table : String
  from_column : String
  to_table : String
  to_column : String
  join_type : String
  description : String
deriving Repr, DecidableEq

/-- `TableRelationship.to_sql_join` with no aliases. -/
def TableRelationship.to_sql_join (r : TableRelationship) : String :=
  r.join_type ++ "  " ++ r.to_table ++ " ON " ++ r.from_table ++ "." ++
    r.from_column ++ " = " ++ r.to_table ++ "." ++ r.to_column

/-- `JoinPath` in schema_parser.py. -/
structure JoinPath where
  tables : List String
  relationships : List TableRelationship
  total_cost : Nat
deriving Repr, DecidableEq

/-- A table entry of `SchemaParser.tables`: the fields of the JSON table
dict that the verified operations read ("role" may be absent, "columns"
maps column name to description). -/
structure TableInfo where
  role : Option String
  columns : List (String × String)
deriving Repr, DecidableEq

/-- The parsed state of a `SchemaParser`: the ordered dict of tables and
the declared relationships. -/
structure SchemaParser where
  tables : List (String × TableInfo)
  relationships : List TableRelationship
deriving Repr, DecidableEq

/-- Python `self.tables.get(name)": first entry with the given key. -/
def lookupTable (p : SchemaParser) (name : String) : Option TableInfo :=
  (p.tables.find? (fun kv => kv.1 == name)).map (fun kv => kv.2)

/-- Whether the declared role of `t` is "fact" (`table_ref.get("role") == "fact"`). -/
def roleIsFact (p : SchemaParser) (t : String) : Bool :=
  match lookupTable p t with
  | some ti => ti.role == some "fact"
  | none => false

/-! Section: schema_parser.py: join-path resolution -/

/-- `SchemaParser._find_fact_table`: the first table of the list whose name
starts with "fact_" or whose declared role is "fact". -/
def find_fact_table (p : SchemaParser) (tables : List String) : Option String :=
  tables.find? (fun t => strStartsWith t "fact_" || roleIsFact p t)

/-- The relationship produced for an edge matched against its declared
direction: endpoints swapped and the join type forced to "INNER JOIN". -/
def swapRel (r : TableRelationship) : TableRelationship :=
  { from_table := r.to_table
    from_column := r.to_column
    to_table := r.from_table
    to_column := r.from_column
    join_type := "INNER JOIN"
    description := r.description }

/-- `SchemaParser._find_relationship`: scan the declared relationships; a
relationship whose from-side is already connected and whose to-side is the
target is returned as declared; one whose to-side is connected and whose
from-side is the target is returned swapped with join type "INNER JOIN". -/
def find_relationship (rels : List TableRelationship)
    (connected : List String) (target : String) : Option TableRelationship :=
  match rels with
  | [] => none
  | r :: rest =>
    if memS r.from_table connected && r.to_table == target then some r
    else if memS r.to_table connected && r.from_table == target then some (swapRel r)
    else find_relationship rest connected target

/-- One pass of the inner `for target in remaining_tables` loop of
`find_join_path`: the first remaining table that `_find_relationship`
can attach, together with the relationship and the other remaining tables. -/
def attachOne (rels : List TableRelationship) (connected : List String) :
    List String → Option (TableRelationship × String × List String)
  | [] => none
  | t :: rest =>
    match find_relationship rels connected t with
    | some r => some (r, t, rest)
    | none =>
      match attachOne rels connected rest with
      | some (r, tg, rem) => some (r, tg, t :: rem)
      | none => none

/-- The `while remaining_tables` loop of `find_join_path` (fuelled; the fuel
is the number of remaining tables, and each iteration attaches exactly one). -/
def joinLoop (rels : List TableRelationship) :
    Nat → List String → JoinPath → List String → Option JoinPath
  | _, _, jp, [] => some jp
  | 0, _, _, _ :: _ => none
  | fuel + 1, connected, jp, t :: ts =>
    match attachOne rels connected (t :: ts) with
    | none => none
    | some (rel, target, rem) =>
      joinLoop rels fuel (connected ++ [target])
        { tables := jp.tables ++ [target]
          relationships := jp.relationships ++ [rel]
          total_cost := jp.total_cost } rem

/-- `SchemaParser.find_join_path`. -/
def find_join_path (p : SchemaParser) (required_tables : List String) : Option JoinPath :=
  match required_tables with
  | [] => none
  | h :: _ =>
    let start := (find_fact_table p required_tables).getD h
    let remaining := required_tables.filter (fun t => !(t == start))
    joinLoop p.relationships remaining.length [start]
      { tables := [start], relationships := [], total_cost := 0 } remaining

/-! Section: sql_validator.py: the scanners for the concrete regex patterns -/

/-- Scan for the leftmost occurrence of one of the given words (ignore case),
delimited by word boundaries on both sides; alternatives are tried in list
order at each position.  Models `re.search` of a pattern of the shape
word-boundary, alternation of literal words, word-boundary.  Each pair holds
the lowercase characters of the word and the string to report on a match. -/
def scanWordAlt (words : List (List Char × String)) :
    Nat → Option Char → List Char → Option String
  | 0, _, _ => none
  | _, _, [] => none
  | fuel + 1, prev, c :: rest =>
    let here :=
      if boundaryBefore prev then
        (words.find? (fun w =>
          match ciMatchList w.1 (c :: rest) with
          | some r => boundaryAfterOk r
          | none => false)).map (fun w => w.2)
      else none
    match here with
    | some w => some w
    | none => scanWordAlt words fuel (some c) rest

/-- Scan for the leftmost position at which `step` matches (the generic
`re.search` driver for the dangerous-pattern scanners below). -/
def scanPred (step : Option Char → List Char → Bool) :
    Nat → Option Char → List Char → Bool
  | 0, _, _ => false
  | _, _, [] => false
  | fuel + 1, prev, c :: rest =>
    step prev (c :: rest) || scanPred step fuel (some c) rest

/-- Whether one of the words matches (ignore case) at the front of the text. -/
def anyCiPrefix (words : List (List Char)) (l : List Char) : Bool :=
  words.any (fun w => (ciMatchList w l).isSome)

/-- Step of the pattern: semicolon, optional space, then a destructive
command word (no trailing word boundary in the source pattern). -/
def stepChainDestructive (_ : Option Char) (l : List Char) : Bool :=
  match l with
  | ';' :: r =>
    anyCiPrefix ["drop".data, "delete".data, "update".data, "alter".data,
      "insert".data] ((r.span isSpaceChar).2)
  | _ => false

/-- Step of the pattern: two hyphens (inline SQL comment). -/
def stepInlineComment (_ : Option Char) (l : List Char) : Bool :=
  match l with
  | '-' :: '-' :: _ => true
  | _ => false

/-- Whether the text contains a block-comment closer. -/
def hasStarSlash : List Char → Bool
  | '*' :: '/' :: _ => true
  | _ :: t => hasStarSlash t
  | [] => false

/-- Step of the pattern: a block-comment opener with a closer after it. -/
def stepBlockComment (_ : Option Char) (l : List Char) : Bool :=
  match l with
  | '/' :: '*' :: r => hasStarSlash r
  | _ => false

/-- Step of the pattern: UNION, spaces, SELECT, between word boundaries. -/
def stepUnionSelect (prev : Option Char) (l : List Char) : Bool :=
  boundaryBefore prev &&
    match ciMatchList "union".data l with
    | some r =>
      let sp := r.span isSpaceChar
      !sp.1.isEmpty &&
        match ciMatchList "select".data sp.2 with
        | some r2 => boundaryAfterOk r2
        | none => false
    | none => false

/-- Step of the pattern: OR, spaces, 1, optional spaces, =, optional
spaces, 1, between word boundaries. -/
def stepOr1Eq1 (prev : Option Char) (l : List Char) : Bool :=
  boundaryBefore prev &&
    match ciMatchList "or".data l with
    | some r =>
      let sp := r.span isSpaceChar
      !sp.1.isEmpty &&
        match sp.2 with
        | '1' :: r2 =>
          (match (r2.span isSpaceChar).2 with
           | '=' :: r3 =>
             (match (r3.span isSpaceChar).2 with
              | '1' :: r4 => boundaryAfterOk r4
              | _ => false)
           | _ => false)
        | _ => false
    | none => false

/-- Step of the pattern: the word EXEC between word boundaries. -/
def stepExecWord (prev : Option Char) (l : List Char) : Bool :=
  boundaryBefore prev &&
    match ciMatchList "exec".data l with
    | some r => boundaryAfterOk r
    | none => false

/-- Step of the pattern: semicolon, optional space, EXEC, word boundary. -/
def stepChainExec (_ : Option Char) (l : List Char) : Bool :=
  match l with
  | ';' :: r =>
    (match ciMatchList "exec".data ((r.span isSpaceChar).2) with
     | some r2 => boundaryAfterOk r2
     | none => false)
  | _ => false

/-- Step of the pattern: word boundary then xp underscore. -/
def stepXp (prev : Option Char) (l : List Char) : Bool :=
  boundaryBefore prev && (ciMatchList "xp_".data l).isSome

/-- Step of the pattern: INFORMATION_SCHEMA between word boundaries. -/
def stepInfoSchema (prev : Option Char) (l : List Char) : Bool :=
  boundaryBefore prev &&
    match ciMatchList "information_schema".data l with
    | some r => boundaryAfterOk r
    | none => false

/-- Step of the patterns: word boundary, the given word, optional spaces,
an opening parenthesis (used for CAST and CONVERT). -/
def stepWordParen (w : List Char) (prev : Option Char) (l : List Char) : Bool :=
  boundaryBefore prev &&
    match ciMatchList w l with
    | some r =>
      (match (r.span isSpaceChar).2 with
       | '(' :: _ => true
       | _ => false)
    | none => false

/-! Section: sql_validator.py: the checks and validate -/

/-- `SQLValidator.forbidden_commands`. -/
def forbidden_commands : List String :=
  ["INSERT", "UPDATE", "DELETE", "DROP", "CREATE", "ALTER", "TRUNCATE",
   "MERGE", "REPLACE", "EXEC", "CALL", "GRANT", "REVOKE"]

/-- `SQLValidator.allowed_functions`. -/
def allowed_functions : List String :=
  ["SUM", "AVG", "COUNT", "MIN", "MAX",
   "DATE", "DATE_TRUNC", "COALESCE", "YEAR", "MONTH"]

/-- `SQLValidator._check_forbidden_commands`: search for a forbidden command
word; the result is (ok, message, offending token). -/
def check_forbidden_commands (sql : String) : Bool × String × Option String :=
  match scanWordAlt (forbidden_commands.map (fun w => ((pyLower <$> w.data : List Char), w)))
      sql.data.length none sql.data with
  | some w => (false, "Forbidden SQL operation detected: " ++ w, some w)
  | none => (true, "OK", none)

/-- The `pattern_labels` dict of `SQLValidator.__init__`, in insertion
order: each entry is the search step for the pattern, its label, and the
pattern text reported as the third component of the check result. -/
def pattern_labels : List ((Option Char → List Char → Bool) × String × String) :=
  [(stepChainDestructive, "Command chaining with destructive SQL",
    ";\\s*(DROP|DELETE|UPDATE|ALTER|INSERT)"),
   (stepInlineComment, "Inline SQL comment (possible injection)", "--"),
   (stepBlockComment, "Block SQL comment (possible injection)", "/\\*[\\s\\S]*?\\*/"),
   (stepUnionSelect, "UNION-based SQL injection attempt", "\\bUNION\\s+SELECT\\b"),
   (stepOr1Eq1, "Boolean-based SQL injection (OR 1=1)", "\\bOR\\s+1\\s*=\\s*1\\b"),
   (stepExecWord, "EXEC call detected (dangerous procedure execution)", "\\bEXEC\\b"),
   (stepChainExec, "Command chaining with EXEC (dangerous)", ";\\s*EXEC\\b"),
   (stepXp, "Extended stored procedure call (SQL Server attack)", "\\bxp_"),
   (stepInfoSchema, "Schema enumeration attempt (probing metadata)",
    "\\bINFORMATION_SCHEMA\\b"),
   (stepWordParen "cast".data, "CAST() function detected (possible injection chain)",
    "\\bCAST\\s*\\("),
   (stepWordParen "convert".data, "CONVERT() function detected (possible injection chain)",
    "\\bCONVERT\\s*\\(")]

/-- `SQLValidator._check_dangerous_pattern`: the first pattern of
`pattern_labels` that matches decides the result. -/
def check_dangerous_pattern (sql : String) : Bool × String × Option String :=
  match pattern_labels.find? (fun e => scanPred e.1 sql.data.length none sql.data) with
  | some e => (false, e.2.1, some e.2.2)
  | none => (true, "OK", none)

/-- `SQLValidator._check_limit`: the SQL must contain the substring LIMIT
(of its uppercased text). -/
def check_limit (sql : String) : Bool × String × Option String :=
  if !(containsSub (pyUpper sql).data "LIMIT".data) then
    (false, "Query must contain a Limit Clause", none)
  else (true, "OK", none)

/-- Non-word-boundary identifier characters of the function-name pattern:
letters and underscore only. -/
def isFnChar (c : Char) : Bool :=
  c.isAlpha || c == '_'

/-- The findall scan of `SQLValidator._check_functions`: every identifier
(letters or underscore, at a word boundary) immediately followed by optional
whitespace and an opening parenthesis, in text order. -/
def findFuncNames : Nat → Option Char → List Char → List String
  | 0, _, _ => []
  | _, _, [] => []
  | fuel + 1, prev, c :: rest =>
    if boundaryBefore prev && isFnChar c then
      let run := (c :: rest).span isFnChar
      let sp := run.2.span isSpaceChar
      match sp.2 with
      | '(' :: r3 => String.mk run.1 :: findFuncNames fuel (some '(') r3
      | _ => findFuncNames fuel (some c) rest
    else findFuncNames fuel (some c) rest

/-- `SQLValidator._check_functions`: every extracted name must be in the
allow-list; the first name outside it is reported. -/
def check_functions (sql : String) : Bool × String × Option String :=
  let names := findFuncNames sql.data.length none sql.data
  match names.find? (fun f => !(memS (pyUpper f) allowed_functions)) with
  | some f => (false, "Forbidden SQL function detected: " ++ f, some f)
  | none => (true, "OK", none)

/-- `SQLValidator._check_basic_syntax`: the stripped, uppercased query must
start with SELECT. -/
def check_basic_shape (sql : String) : Bool × String × Option String :=
  if !(strStartsWith (pyUpper (pyStrip sql)) "SELECT") then
    (false, "Query must start with SELECT", none)
  else (true, "OK", none)

/-- The dict returned by `SQLValidator.validate`. -/
structure ValidationResult where
  ok : Bool
  error_code : Option String
  error_message : Option String
  invalid_token : Option String
  sql : String
  fixed : Bool
deriving Repr, DecidableEq

/-- `SQLValidator.validate`: run the enabled checks (forbidden commands,
dangerous patterns, functions, basic shape; the schema-lock and LIMIT checks
are commented out in the source) and collect all errors. -/
def validate (sql : String) : ValidationResult :=
  let r1 := check_forbidden_commands sql
  let e1 : List String := if r1.1 then [] else ["Security violation: " ++ r1.2.1]
  let r2 := check_dangerous_pattern sql
  let e2 : List String := if r2.1 then [] else ["Injection risk: " ++ r2.2.1]
  let r3 := check_functions sql
  let e3 : List String := if r3.1 then [] else ["Function restriction: " ++ r3.2.1]
  let r4 := check_basic_shape sql
  let e4 : List String := if r4.1 then [] else ["Syntax error: " ++ r4.2.1]
  let errors := e1 ++ e2 ++ e3 ++ e4
  if errors.isEmpty then
    { ok := true, error_code := none, error_message := none,
      invalid_token := none, sql := sql, fixed := false }
  else
    { ok := false, error_code := some "MULTIPLE_VIOLATIONS",
      error_message := some (joinSemi errors), invalid_token := none,
      sql := sql, fixed := false }

/-! Section: date_converter.py -/

/-- `ALL_MONTHS`: the merge of the German and English month dicts, in
Python dict insertion order (German names first, then the English names
not shadowed by a German spelling); each name is stored lowercase with
its two-digit month number. -/
def allMonths : List (List Char × String) :=
  [(['j','a','n','u','a','r'], "01"), (['f','e','b','r','u','a','r'], "02"),
   (['m','ä','r','z'], "03"), (['a','p','r','i','l'], "04"),
   (['m','a','i'], "05"), (['j','u','n','i'], "06"),
   (['j','u','l','i'], "07"), (['a','u','g','u','s','t'], "08"),
   (['s','e','p','t','e','m','b','e','r'], "09"),
   (['o','k','t','o','b','e','r'], "10"),
   (['n','o','v','e','m','b','e','r'], "11"),
   (['d','e','z','e','m','b','e','r'], "12"),
   (['j','a','n','u','a','r','y'], "01"), (['f','e','b','r','u','a','r','y'], "02"),
   (['m','a','r','c','h'], "03"), (['m','a','y'], "05"),
   (['j','u','n','e'], "06"), (['j','u','l','y'], "07"),
   (['o','c','t','o','b','e','r'], "10"), (['d','e','c','e','m','b','e','r'], "12")]

/-- Python str.zfill(2) for a one-or-two digit group. -/
def zfill2 (l : List Char) : List Char :=
  if l.length == 1 then '0' :: l else l

/-- Try the month alternation at the front of the text (alternatives in
dict order, matched case-insensitively); the continuation receives the
month number and the text after the name, and a failing continuation
backtracks to the next alternative. -/
def tryMonths (cont : String → List Char → Option (Nat × List Char)) :
    List (List Char × String) → List Char → Option (Nat × List Char)
  | [], _ => none
  | (name, num) :: rest, l =>
    match ciMatchList name l with
    | some r =>
      (match cont num r with
       | some res => some res
       | none => tryMonths cont rest l)
    | none => tryMonths cont rest l

/-- Match one or two digits (greedy) followed by a literal dot; returns the
digit group and the text after the dot. -/
def digits12Dot : List Char → Option (List Char × List Char)
  | d1 :: d2 :: rest =>
    if d1.isDigit then
      if d2.isDigit then
        (match rest with
         | '.' :: r => some ([d1, d2], r)
         | _ => none)
      else if d2 == '.' then some ([d1], rest)
      else none
    else none
  | _ => none

/-- Match exactly four digits at the front of the text. -/
def take4Digits : List Char → Option (List Char × List Char)
  | a :: b :: c :: d :: rest =>
    if a.isDigit && b.isDigit && c.isDigit && d.isDigit then
      some ([a, b, c, d], rest)
    else none
  | _ => none

/-- The optional literal dot after the day digits of pattern 1. -/
def optDot : List Char → List Char
  | '.' :: rr => rr
  | r => r

/-- The continuation of pattern 1 after the day digits: optional dot,
spaces, month name, spaces, four-digit year, word boundary; `total` is the
length of the text from the match position, used to compute the span. -/
def matchP1attempt (total : Nat) (day r : List Char) : Option (Nat × List Char) :=
  let sp := (optDot r).span isSpaceChar
  if sp.1.isEmpty then none
  else
    tryMonths (fun num r3 =>
      let sp2 := r3.span isSpaceChar
      if sp2.1.isEmpty then none
      else
        match take4Digits sp2.2 with
        | some (yr, r5) =>
          if boundaryAfterOk r5 then
            some (total - r5.length,
              yr ++ ('-' :: num.data) ++ ('-' :: zfill2 day))
          else none
        | none => none) allMonths sp.2

/-- Pattern 1 of `extract_and_convert_dates`: word boundary, one or two
digits (greedy), optional dot, spaces, month name, spaces, four-digit year,
word boundary; replaced by year-month-zfilled day.  Returns the length of
the matched span and the replacement text. -/
def matchP1 (prev : Option Char) (l : List Char) : Option (Nat × List Char) :=
  if !(boundaryBefore prev) then none
  else
    match l with
    | d1 :: d2 :: rest =>
      if d1.isDigit && d2.isDigit then
        (match matchP1attempt l.length [d1, d2] rest with
         | some res => some res
         | none => matchP1attempt l.length [d1] (d2 :: rest))
      else if d1.isDigit then matchP1attempt l.length [d1] (d2 :: rest)
      else none
    | [d1] =>
      if d1.isDigit then matchP1attempt l.length [d1] [] else none
    | [] => none

/-- Pattern 2 of `extract_and_convert_dates`: word boundary, month name,
spaces, four-digit year, word boundary; replaced by year-month. -/
def matchP2 (prev : Option Char) (l : List Char) : Option (Nat × List Char) :=
  if !(boundaryBefore prev) then none
  else
    tryMonths (fun num r =>
      let sp := r.span isSpaceChar
      if sp.1.isEmpty then none
      else
        match take4Digits sp.2 with
        | some (yr, r2) =>
          if boundaryAfterOk r2 then
            some (l.length - r2.length, yr ++ ('-' :: num.data))
          else none
        | none => none) allMonths l

/-- Pattern 3 of `extract_and_convert_dates`: word boundary, one or two
digits, dot, one or two digits, dot, four-digit year, word boundary;
replaced by year-zfilled month-zfilled day. -/
def matchP3 (prev : Option Char) (l : List Char) : Option (Nat × List Char) :=
  if !(boundaryBefore prev) then none
  else
    match digits12Dot l with
    | some (day, r1) =>
      (match digits12Dot r1 with
       | some (mon, r2) =>
         (match take4Digits r2 with
          | some (yr, r3) =>
            if boundaryAfterOk r3 then
              some (l.length - r3.length,
                yr ++ ('-' :: zfill2 mon) ++ ('-' :: zfill2 day))
            else none
          | none => none)
       | none => none)
    | none => none

/-- The `re.sub` driver: scan left to right over the original text; on a
match emit the replacement and resume after the matched span, otherwise
keep the character and advance by one.  Word-boundary context (`prev`) is
taken from the original text, as in the regex engine. -/
def subScan (matcher : Option Char → List Char → Option (Nat × List Char)) :
    Nat → Option Char → List Char → List Char
  | 0, _, l => l
  | _, _, [] => []
  | fuel + 1, prev, c :: rest =>
    match matcher prev (c :: rest) with
    | some (n, repl) =>
      if n == 0 then c :: subScan matcher fuel (some c) rest
      else
        repl ++ subScan matcher fuel (((c :: rest).take n).getLastD c)
          ((c :: rest).drop n)
    | none => c :: subScan matcher fuel (some c) rest

/-- One full substitution pass over a text. -/
def pySub (matcher : Option Char → List Char → Option (Nat × List Char))
    (l : List Char) : List Char :=
  subScan matcher l.length none l

/-- `extract_and_convert_dates`: the three substitution passes in source
order (day-month name-year, month name-year, numeric day.month.year). -/
def extract_and_convert_dates (text : String) : String :=
  String.mk (pySub matchP3 (pySub matchP2 (pySub matchP1 text.data)))

/-! Section: schema_parser.py: column validation and table selection -/

/-- The findall scan of `SchemaParser.validate_sql_columns` for the pattern
word-run, dot, word-run: the list of (table, column) tokens in text order. -/
def findDotPairs : Nat → List Char → List (String × String)
  | 0, _ => []
  | _, [] => []
  | fuel + 1, c :: rest =>
    let run := (c :: rest).span isWordChar
    if run.1.isEmpty then findDotPairs fuel rest
    else
      match run.2 with
      | '.' :: r2 =>
        let run2 := r2.span isWordChar
        if run2.1.isEmpty then findDotPairs fuel rest
        else (String.mk run.1, String.mk run2.1) :: findDotPairs fuel run2.2
      | _ => findDotPairs fuel rest

/-- The SQL keywords skipped by `validate_sql_columns` when they appear as
the table part of a token. -/
def columnCheckKeywords : List String :=
  ["SELECT", "FROM", "WHERE", "GROUP", "ORDER", "HAVING", "JOIN",
   "LEFT", "RIGHT", "INNER", "OUTER"]

/-- Whether one (table, column) token is reported by `validate_sql_columns`:
the table part is not a skipped keyword, names a table of the schema, and
the column is not in that table's declared column map. -/
def colInvalid (p : SchemaParser) (t c : String) : Bool :=
  if memS (pyUpper t) columnCheckKeywords then false
  else
    match lookupTable p t with
    | none => false
    | some ti => (ti.columns.find? (fun kv => kv.1 == c)).isNone

/-- First-occurrence deduplication, modelling the iteration over the Python
set of table names in the failure message (CPython set order is not
specified; only the boolean component of the result is used in proofs). -/
def dedupFirst : List String → List String
  | [] => []
  | x :: rest => x :: (dedupFirst rest).filter (fun y => !(y == x))

/-- `SchemaParser.validate_sql_columns`: extract every table.column token,
skip keyword aliases and unknown tables, and report columns missing from
the declared column map; returns (ok, message). -/
def validate_sql_columns (p : SchemaParser) (sql_query : String) : Bool × String :=
  let tokens := findDotPairs sql_query.data.length sql_query.data
  let invalid := (tokens.filter (fun tc => colInvalid p tc.1 tc.2)).map
    (fun tc => tc.1 ++ "." ++ tc.2)
  if invalid.isEmpty then (true, "")
  else
    let availInfo := (dedupFirst ((tokens.map (fun tc => tc.1)).filter
      (fun t => (lookupTable p t).isSome))).map
      (fun t =>
        t ++ ": " ++ joinComma ((((lookupTable p t).getD
          { role := none, columns := [] }).columns.map
            (fun kv => kv.1)).take 5) ++ "...")
    (false, "Invalid columns in query: " ++ joinComma invalid ++
      ". Check available columns: " ++ joinSemi availInfo)

/-- `SchemaParser.get_relevant_tables`, with the answer of the
`select_tables` LLM call passed in as `llmTables` (a `None`
`actual_table_names` argument is modelled by the empty list). -/
def get_relevant_tables (p : SchemaParser) (actual_table_names : List String)
    (llmTables : List String) : Except String (List String) :=
  if p.tables.length == 1 && !actual_table_names.isEmpty then
    Except.ok actual_table_names
  else
    let valid := llmTables.filter (fun t => (lookupTable p t).isSome)
    if valid.isEmpty then
      Except.error ("Cannot answer question: No matching tables found in schema. The question may require data not available in this schema. Available tables: "
        ++ joinComma (p.tables.map (fun kv => kv.1)))
    else Except.ok valid

/-! Section: llm_sql_generator.py: generate_multi_table_sql -/

/-- The code-fence cleanup applied to the raw LLM answer in
`generate_multi_table_sql` (steps strip, strip a leading sql fence, strip a
remaining fence). -/
def cleanupSQL (raw : String) : String :=
  let s0 := pyStrip raw
  let s1 :=
    if strStartsWith s0 "```sql" then
      pyStrip (replaceSub (replaceSub s0 "```sql" "") "```" "")
    else s0
  if strStartsWith s1 "```" then pyStrip (replaceSub s1 "```" "") else s1

/-- `generate_multi_table_sql`, with the two LLM calls modelled by the
parameters `llmTables` (the table selection made from the date-processed
question) and `llmSQL` (the raw SQL answer).  Exceptions raised by the
source (no matching tables, empty selection, no join path) are `error`
results; otherwise the cleaned-up LLM SQL is returned.  The source performs
no column-existence check on `llmSQL`. -/
def generate_multi_table_sql (p : SchemaParser) (user_question : String)
    (llmTables : List String) (llmSQL : String) : Except String String :=
  let _processed := extract_and_convert_dates user_question
  match get_relevant_tables p [] llmTables with
  | Except.error e => Except.error e
  | Except.ok relevant =>
    if relevant.isEmpty then
      Except.error "No relevant tables identified for the question"
    else
      let jp := find_join_path p relevant
      if jp.isNone && decide (1 < relevant.length) then
        Except.error "Unable to connect selected tables with JOINs"
      else Except.ok (cleanupSQL llmSQL)

/-! Section: Derived notions and concrete fixtures used by the claims -/

/-- Two tables are adjacent when some declared relationship connects them,
in either direction. -/
def adjacentTables (rels : List TableRelationship) (a b : String) : Prop :=
  ∃ r, r ∈ rels ∧ ((r.from_table = a ∧ r.to_table = b) ∨
    (r.from_table = b ∧ r.to_table = a))

/-- A relationship of a join path is justified when it is a declared
relationship (matched in its declared direction) or the swap of one
(matched in reverse, with join type forced to "INNER JOIN"). -/
def Justified (rels : List TableRelationship) (r : TableRelationship) : Prop :=
  r ∈ rels ∨ ∃ d, d ∈ rels ∧ r = swapRel d

/-- The root choice described by the specification wording of claim C5
(for comparison with the source's `_find_fact_table`): the first required
table whose declared role is "fact". -/
def spec_root_by_role (p : SchemaParser) (req : List String) : Option String :=
  req.find? (fun t => roleIsFact p t)

/-- The characters of ISO-formatted dates and their separators: digits,
hyphen and space. -/
def isoCharsList : List Char :=
  ['0', '1', '2', '3', '4', '5', '6', '7', '8', '9', '-', ' ']

/-- Fixture: a declared relationship from fact_x to y. -/
def relFX : TableRelationship :=
  { from_table := "fact_x", from_column := "k", to_table := "y", to_column := "k",
    join_type := "LEFT JOIN", description := "" }

/-- Fixture: a schema whose table fact_x has role "dimension" while table y
has role "fact" (the name prefix and the declared role disagree). -/
def pRole : SchemaParser :=
  { tables := [("fact_x", { role := some "dimension", columns := [("k", "key")] }),
               ("y", { role := some "fact", columns := [("k", "key")] })],
    relationships := [relFX] }

/-- The join path produced for the `pRole` fixture. -/
def jpRole : JoinPath :=
  { tables := ["fact_x", "y"], relationships := [relFX], total_cost := 0 }

/-- Fixture: a declared relationship from a to b with join type LEFT JOIN. -/
def relAB : TableRelationship :=
  { from_table := "a", from_column := "x", to_table := "b", to_column := "x",
    join_type := "LEFT JOIN", description := "d1" }

/-- Fixture: a declared relationship from c to a with join type RIGHT JOIN
(to be traversed in reverse when a is the root). -/
def relCA : TableRelationship :=
  { from_table := "c", from_column := "y", to_table := "a", to_column := "y",
    join_type := "RIGHT JOIN", description := "d2" }

/-- Fixture: a three-table schema joined a-b (declared direction) and
c-a (reverse direction from the root a). -/
def pTri : SchemaParser :=
  { tables := [("a", { role := none, columns := [("x", ""), ("y", "")] }),
               ("b", { role := none, columns := [("x", "")] }),
               ("c", { role := none, columns := [("y", "")] })],
    relationships := [relAB, relCA] }

/-- The join path produced for the `pTri` fixture on all three tables:
the reversed edge appears swapped with join type "INNER JOIN". -/
def jpTri : JoinPath :=
  { tables := ["a", "b", "c"], relationships := [relAB, swapRel relCA],
    total_cost := 0 }

/-- Fixture: two tables with no declared relationships (two disconnected
components of the relationship graph). -/
def pDisc : SchemaParser :=
  { tables := [("a", { role := none, columns := [] }),
               ("b", { role := none, columns := [] })],
    relationships := [] }

/-- Fixture: a two-table schema used for the table-selection claim. -/
def pTwo : SchemaParser :=
  { tables := [("t1", { role := none, columns := [] }),
               ("t2", { role := none, columns := [] })],
    relationships := [] }

/-- Fixture: a one-table schema whose table t declares only column a. -/
def pColEx : SchemaParser :=
  { tables := [("t", { role := none, columns := [("a", "int")] })],
    relationships := [] }

/-! Section: General lemmas about the embedded operations -/

theorem memS_iff (x : String) (l : List String) : memS x l = true ↔ x ∈ l := by
  induction l with
  | nil => simp [memS]
  | cons y ys ih => simp [memS, ih, beq_iff_eq]

theorem validate_ok_false_of_shape_fail (sql : String)
    (h : strStartsWith (pyUpper (pyStrip sql)) "SELECT" = false) :
    (validate sql).ok = false := by
  have h4 : check_basic_shape sql = (false, "Query must start with SELECT", none) := by
    simp [check_basic_shape, h]
  simp only [validate, h4]
  have hne : ∀ l1 l2 l3 : List String,
      (l1 ++ l2 ++ l3 ++ ["Syntax error: Query must start with SELECT"]).isEmpty = false := by
    intro l1 l2 l3
    rw [List.isEmpty_eq_false]
    simp
  simp [hne]

/-! Section: Claims C2, C7, C8: the SQL validator -/

/-- Claim C2, counterexample: the claim states that a plain SELECT with no
aggregation signal and no LIMIT clause is rejected, but `validate` of
"SELECT id FROM t" returns ok=true, because the LIMIT check is commented
out of `validate` in the source. -/
theorem validate_missing_limit_cex : (validate "SELECT id FROM t").ok = true := by
  rfl

/-- Claim C2, amended: the LIMIT requirement is disabled in `validate`
(the call to `_check_limit` is commented out), so both the plain SELECT
without LIMIT and the aggregation query return ok=true; the unused helper
`_check_limit` rejects any SQL lacking the substring LIMIT, with no
aggregation exemption. -/
theorem validate_limit_check_disabled :
    (validate "SELECT id FROM t").ok = true ∧
    (validate "SELECT SUM(x) FROM t GROUP BY y").ok = true ∧
    (check_limit "SELECT id FROM t").1 = false ∧
    (check_limit "SELECT SUM(x) FROM t GROUP BY y").1 = false := by
  exact ⟨rfl, rfl, rfl, rfl⟩

/-- Claim C7, counterexample: the claim states the basic-shape check
accepts queries starting with WITH, but `_check_basic_syntax` reports a
violation for a WITH query (only SELECT passes). -/
theorem check_basic_shape_with_cex :
    (check_basic_shape "WITH t AS (SELECT 1) SELECT x FROM t").1 = false := by
  rfl

/-- Claim C7, amended: the basic-shape check accepts exactly the strings
whose stripped, upper-cased text starts with SELECT; for every other
string — queries beginning with WITH included — `validate` returns
ok=false. -/
theorem validate_requires_select_start (sql : String)
    (h : strStartsWith (pyUpper (pyStrip sql)) "SELECT" = false) :
    (check_basic_shape sql).1 = false ∧ (validate sql).ok = false := by
  constructor
  · simp [check_basic_shape, h]
  · exact validate_ok_false_of_shape_fail sql h

/-- Witness for the amended claim C7 at a concrete WITH query. -/
theorem validate_requires_select_start_witness :
    (check_basic_shape "WITH t AS (SELECT 1) SELECT x FROM t LIMIT 10").1 = false ∧
    (validate "WITH t AS (SELECT 1) SELECT x FROM t LIMIT 10").ok = false :=
  validate_requires_select_start "WITH t AS (SELECT 1) SELECT x FROM t LIMIT 10" rfl

/-- Claim C8, counterexample: the claim states the extraction excludes the
SQL keywords IN, AND, OR, NOT, LIKE, AS, VALUES, FROM, JOIN, so that a
query whose only identifier-before-parenthesis tokens are such keywords
passes the function check; but the source applies no keyword exclusion,
and IN followed by a parenthesis is reported as a forbidden function. -/
theorem check_functions_keyword_cex :
    (check_functions "SELECT * FROM t WHERE x IN (1,2)").1 = false ∧
    (check_functions "SELECT * FROM t WHERE x IN (1,2)").2.2 = some "IN" := by
  exact ⟨rfl, rfl⟩

/-! Section: Lemmas on the join-path resolution loop -/

theorem find_relationship_sound :
    ∀ {rels : List TableRelationship} {connected : List String} {target : String}
      {r : TableRelationship},
      find_relationship rels connected target = some r →
      (∃ c, c ∈ connected ∧ adjacentTables rels c target) ∧ Justified rels r := by
  intro rels
  induction rels with
  | nil => intro connected target r h; simp [find_relationship] at h
  | cons d rest ih =>
    intro connected target r h
    simp only [find_relationship] at h
    by_cases h1 : (memS d.from_table connected && (d.to_table == target)) = true
    · rw [if_pos h1] at h
      have hd : d = r := Option.some.inj h
      obtain ⟨hm, ht⟩ := Bool.and_eq_true_iff.mp h1
      have ht2 : d.to_table = target := eq_of_beq ht
      refine ⟨⟨d.from_table, (memS_iff _ _).mp hm, d, List.mem_cons_self d rest,
        Or.inl ⟨rfl, ht2⟩⟩, Or.inl ?_⟩
      rw [← hd]
      exact List.mem_cons_self d rest
    · rw [if_neg h1] at h
      by_cases h2 : (memS d.to_table connected && (d.from_table == target)) = true
      · rw [if_pos h2] at h
        have hd : swapRel d = r := Option.some.inj h
        obtain ⟨hm, ht⟩ := Bool.and_eq_true_iff.mp h2
        have ht2 : d.from_table = target := eq_of_beq ht
        exact ⟨⟨d.to_table, (memS_iff _ _).mp hm, d, List.mem_cons_self d rest,
          Or.inr ⟨ht2, rfl⟩⟩, Or.inr ⟨d, List.mem_cons_self d rest, hd.symm⟩⟩
      · rw [if_neg h2] at h
        obtain ⟨⟨c, hc, e, he, hcond⟩, hj⟩ := ih h
        refine ⟨⟨c, hc, e, List.mem_cons_of_mem d he, hcond⟩, ?_⟩
        rcases hj with hj | ⟨e2, he2, heq⟩
        · exact Or.inl (List.mem_cons_of_mem d hj)
        · exact Or.inr ⟨e2, List.mem_cons_of_mem d he2, heq⟩

theorem attachOne_some {rels : List TableRelationship} {connected : List String} :
    ∀ {remaining : List String} {r : TableRelationship} {t : String}
      {rem : List String},
      attachOne rels connected remaining = some (r, t, rem) →
      find_relationship rels connected t = some r ∧ remaining.Perm (t :: rem) := by
  intro remaining
  induction remaining with
  | nil => intro r t rem h; simp [attachOne] at h
  | cons hd tl ih =>
    intro r t rem h
    simp only [attachOne] at h
    cases hF : find_relationship rels connected hd with
    | some r0 =>
      rw [hF] at h
      simp only [Option.some.injEq, Prod.mk.injEq] at h
      obtain ⟨h1, h2, h3⟩ := h
      subst h1; subst h2; subst h3
      exact ⟨hF, List.Perm.refl _⟩
    | none =>
      rw [hF] at h
      cases hA : attachOne rels connected tl with
      | none => rw [hA] at h; simp at h
      | some trip =>
        obtain ⟨r1, t1, rem1⟩ := trip
        rw [hA] at h
        simp only [Option.some.injEq, Prod.mk.injEq] at h
        obtain ⟨h1, h2, h3⟩ := h
        subst h1; subst h2; subst h3
        obtain ⟨hF1, hPerm1⟩ := ih hA
        exact ⟨hF1, (hPerm1.cons hd).trans (List.Perm.swap t1 hd rem1)⟩

theorem joinLoop_perm (rels : List TableRelationship) :
    ∀ (fuel : Nat) (remaining connected : List String) (jp out : JoinPath),
      joinLoop rels fuel connected jp remaining = some out →
      out.tables.Perm (jp.tables ++ remaining) ∧
      out.relationships.length = jp.relationships.length + remaining.length := by
  intro fuel
  induction fuel with
  | zero =>
    intro remaining connected jp out h
    cases remaining with
    | nil =>
      simp only [joinLoop, Option.some.injEq] at h
      subst h
      exact ⟨by simp, by simp⟩
    | cons a as => simp [joinLoop] at h
  | succ n ih =>
    intro remaining connected jp out h
    cases remaining with
    | nil =>
      simp only [joinLoop, Option.some.injEq] at h
      subst h
      exact ⟨by simp, by simp⟩
    | cons a as =>
      simp only [joinLoop] at h
      cases hA : attachOne rels connected (a :: as) with
      | none => rw [hA] at h; simp at h
      | some trip =>
        obtain ⟨rel, tg, rem⟩ := trip
        rw [hA] at h
        obtain ⟨hFR, hPerm⟩ := attachOne_some hA
        obtain ⟨ihPerm, ihLen⟩ := ih rem (connected ++ [tg]) _ out h
        constructor
        · have h1 : out.tables.Perm (jp.tables ++ (tg :: rem)) := by
            simpa using ihPerm
          exact h1.trans (List.Perm.append_left _ hPerm.symm)
        · have h2 := hPerm.length_eq
          simp only [List.length_cons] at h2
          simp only [List.length_append, List.length_cons, List.length_nil] at ihLen ⊢
          omega

theorem joinLoop_justified (rels : List TableRelationship) :
    ∀ (fuel : Nat) (remaining connected : List String) (jp out : JoinPath),
      joinLoop rels fuel connected jp remaining = some out →
      (∀ r ∈ jp.relationships, Justified rels r) →
      ∀ r ∈ out.relationships, Justified rels r := by
  intro fuel
  induction fuel with
  | zero =>
    intro remaining connected jp out h hbase
    cases remaining with
    | nil =>
      simp only [joinLoop, Option.some.injEq] at h
      subst h
      exact hbase
    | cons a as => simp [joinLoop] at h
  | succ n ih =>
    intro remaining connected jp out h hbase
    cases remaining with
    | nil =>
      simp only [joinLoop, Option.some.injEq] at h
      subst h
      exact hbase
    | cons a as =>
      simp only [joinLoop] at h
      cases hA : attachOne rels connected (a :: as) with
      | none => rw [hA] at h; simp at h
      | some trip =>
        obtain ⟨rel, tg, rem⟩ := trip
        rw [hA] at h
        obtain ⟨hFR, _⟩ := attachOne_some hA
        refine ih rem (connected ++ [tg]) _ out h ?_
        intro r hr
        simp only [List.mem_append, List.mem_singleton] at hr
        rcases hr with hr | hr
        · exact hbase r hr
        · subst hr
          exact (find_relationship_sound hFR).2

theorem joinLoop_reach (rels : List TableRelationship) (R : String → Prop)
    (hstep : ∀ c t, R c → adjacentTables rels c t → R t) :
    ∀ (fuel : Nat) (remaining connected : List String) (jp out : JoinPath),
      joinLoop rels fuel connected jp remaining = some out →
      (∀ c ∈ connected, R c) → ∀ x ∈ remaining, R x := by
  intro fuel
  induction fuel with
  | zero =>
    intro remaining connected jp out h hconn x hx
    cases remaining with
    | nil => simp at hx
    | cons a as => simp [joinLoop] at h
  | succ n ih =>
    intro remaining connected jp out h hconn x hx
    cases remaining with
    | nil => simp at hx
    | cons a as =>
      simp only [joinLoop] at h
      cases hA : attachOne rels connected (a :: as) with
      | none => rw [hA] at h; simp at h
      | some trip =>
        obtain ⟨rel, tg, rem⟩ := trip
        rw [hA] at h
        obtain ⟨hFR, hPerm⟩ := attachOne_some hA
        have hRtg : R tg := by
          obtain ⟨⟨c, hc, hadj⟩, _⟩ := find_relationship_sound hFR
          exact hstep c tg (hconn c hc) hadj
        have hconn2 : ∀ c ∈ connected ++ [tg], R c := by
          intro c hc
          rcases List.mem_append.mp hc with hc | hc
          · exact hconn c hc
          · simp only [List.mem_singleton] at hc
            subst hc
            exact hRtg
        have hrem := ih rem (connected ++ [tg]) _ out h hconn2
        have hx2 : x ∈ tg :: rem := hPerm.mem_iff.mp hx
        rcases List.mem_cons.mp hx2 with hx2 | hx2
        · subst hx2; exact hRtg
        · exact hrem x hx2

theorem joinLoop_head (rels : List TableRelationship) :
    ∀ (fuel : Nat) (remaining connected : List String) (jp out : JoinPath),
      joinLoop rels fuel connected jp remaining = some out →
      jp.tables ≠ [] → out.tables.head? = jp.tables.head? := by
  intro fuel
  induction fuel with
  | zero =>
    intro remaining connected jp out h hne
    cases remaining with
    | nil =>
      simp only [joinLoop, Option.some.injEq] at h
      subst h
      rfl
    | cons a as => simp [joinLoop] at h
  | succ n ih =>
    intro remaining connected jp out h hne
    cases remaining with
    | nil =>
      simp only [joinLoop, Option.some.injEq] at h
      subst h
      rfl
    | cons a as =>
      simp only [joinLoop] at h
      cases hA : attachOne rels connected (a :: as) with
      | none => rw [hA] at h; simp at h
      | some trip =>
        obtain ⟨rel, tg, rem⟩ := trip
        rw [hA] at h
        have hmid := ih rem (connected ++ [tg]) _ out h (by simp)
        rw [hmid]
        cases hjt : jp.tables with
        | nil => exact absurd hjt hne
        | cons b bs => simp [hjt]

theorem find_join_path_eq (p : SchemaParser) (a : String) (l : List String) :
    find_join_path p (a :: l) =
      joinLoop p.relationships
        ((a :: l).filter (fun x => !(x == (find_fact_table p (a :: l)).getD a))).length
        [(find_fact_table p (a :: l)).getD a]
        { tables := [(find_fact_table p (a :: l)).getD a], relationships := [],
          total_cost := 0 }
        ((a :: l).filter (fun x => !(x == (find_fact_table p (a :: l)).getD a))) := rfl

theorem start_mem_required (p : SchemaParser) (a : String) (l : List String) :
    (find_fact_table p (a :: l)).getD a ∈ a :: l := by
  cases hf : find_fact_table p (a :: l) with
  | none => simp
  | some s =>
    simp only [Option.getD_some]
    unfold find_fact_table at hf
    exact List.mem_of_find?_eq_some hf

theorem dedup_all_eq :
    ∀ {l : List String} {s : String}, l ≠ [] → (∀ x ∈ l, x = s) → l.dedup = [s] := by
  intro l
  induction l with
  | nil => intro s hne _; exact absurd rfl hne
  | cons a t ih =>
    intro s hne hall
    have ha : a = s := hall a (List.mem_cons_self a t)
    cases t with
    | nil =>
      rw [List.dedup_cons_of_not_mem (by simp), List.dedup_nil, ha]
    | cons b u =>
      have hb : b = s := hall b (by simp)
      have hmem : a ∈ b :: u := by
        rw [ha, hb]
        exact List.mem_cons_self s u
      rw [List.dedup_cons_of_mem hmem]
      exact ih (by simp) (fun x hx => hall x (List.mem_cons_of_mem a hx))

/-! Section: Claims C3, C4, C5, C6: join-path resolution -/

/-- Claim C3: when the required tables span two components of the declared
relationship graph that are not connected, `find_join_path` returns none;
and whenever it returns a join path, the path contains every requested
table and every edge of the path is justified by a declared relationship
(in its declared direction or swapped). -/
theorem find_join_path_connectivity (p : SchemaParser) (required : List String) :
    ((∃ a, a ∈ required ∧ ∃ b, b ∈ required ∧
        ¬ Relation.ReflTransGen (adjacentTables p.relationships) a b) →
      find_join_path p required = none) ∧
    (∀ jp, find_join_path p required = some jp →
      (∀ x ∈ required, x ∈ jp.tables) ∧
      ∀ r ∈ jp.relationships, Justified p.relationships r) := by
  constructor
  · rintro ⟨a, ha, b, hb, hnr⟩
    cases hfp : find_join_path p required with
    | none => rfl
    | some jp =>
      exfalso
      cases required with
      | nil => simp at ha
      | cons h t =>
        rw [find_join_path_eq] at hfp
        have hreach := joinLoop_reach p.relationships
          (fun x => Relation.ReflTransGen (adjacentTables p.relationships)
            ((find_fact_table p (h :: t)).getD h) x)
          (fun c x hc hadj => hc.tail hadj)
          _ _ _ _ jp hfp
          (by
            intro c hc
            simp only [List.mem_singleton] at hc
            subst hc
            exact Relation.ReflTransGen.refl)
        have hall : ∀ x ∈ h :: t,
            Relation.ReflTransGen (adjacentTables p.relationships)
              ((find_fact_table p (h :: t)).getD h) x := by
          intro x hx
          by_cases hxs : x = (find_fact_table p (h :: t)).getD h
          · subst hxs; exact Relation.ReflTransGen.refl
          · exact hreach x (List.mem_filter.mpr ⟨hx, by simp [hxs]⟩)
        have hsym : Symmetric (adjacentTables p.relationships) := by
          rintro x y ⟨r, hr, hc⟩
          exact ⟨r, hr, hc.symm⟩
        exact hnr (((Relation.ReflTransGen.symmetric hsym) (hall a ha)).trans (hall b hb))
  · intro jp hfp
    cases required with
    | nil => simp [find_join_path] at hfp
    | cons h t =>
      rw [find_join_path_eq] at hfp
      obtain ⟨hPerm, _⟩ := joinLoop_perm p.relationships _ _ _ _ jp hfp
      constructor
      · intro x hx
        refine hPerm.mem_iff.mpr ?_
        by_cases hxs : x = (find_fact_table p (h :: t)).getD h
        · subst hxs; simp
        · simp only [List.mem_append]
          exact Or.inr (List.mem_filter.mpr ⟨hx, by simp [hxs]⟩)
      · exact joinLoop_justified p.relationships _ _ _ _ jp hfp (by simp)

/-- Witness for claim C3: two tables with no declared relationship are
disconnected, and resolution over both returns none. -/
theorem find_join_path_connectivity_witness :
    find_join_path pDisc ["a", "b"] = none :=
  (find_join_path_connectivity pDisc ["a", "b"]).1
    ⟨"a", by simp, "b", by simp, by
      intro hr
      rcases Relation.ReflTransGen.cases_head hr with heq | ⟨c, hadj, _⟩
      · exact absurd heq (by decide)
      · rcases hadj with ⟨r, hrm, _⟩
        simp [pDisc] at hrm⟩

/-- Claim C4: whenever `find_join_path` returns a join path, the number of
relationships is the number of tables minus one, and the relationship list
is empty exactly when only one (distinct) table was requested. -/
theorem find_join_path_tree_invariant (p : SchemaParser) (required : List String)
    (jp : JoinPath) (hfp : find_join_path p required = some jp) :
    jp.relationships.length = jp.tables.length - 1 ∧
    (jp.relationships = [] ↔ required.dedup.length = 1) := by
  cases required with
  | nil => simp [find_join_path] at hfp
  | cons h t =>
    rw [find_join_path_eq] at hfp
    obtain ⟨hPerm, hLen⟩ := joinLoop_perm p.relationships _ _ _ _ jp hfp
    have hTlen := hPerm.length_eq
    simp only [List.length_append, List.length_cons, List.length_nil] at hTlen hLen
    constructor
    · omega
    · have hstartmem := start_mem_required p h t
      constructor
      · intro hnil
        rw [hnil] at hLen
        simp only [List.length_nil] at hLen
        have hremnil : (h :: t).filter
            (fun x => !(x == (find_fact_table p (h :: t)).getD h)) = [] := by
          apply List.eq_nil_of_length_eq_zero
          omega
        have hall : ∀ x ∈ h :: t, x = (find_fact_table p (h :: t)).getD h := by
          intro x hx
          by_contra hne
          have hxin : x ∈ (h :: t).filter
              (fun y => !(y == (find_fact_table p (h :: t)).getD h)) :=
            List.mem_filter.mpr ⟨hx, by simp [hne]⟩
          rw [hremnil] at hxin
          simp at hxin
        rw [dedup_all_eq (by simp) hall]
        rfl
      · intro hded
        obtain ⟨e, he⟩ := List.length_eq_one.mp hded
        have hall : ∀ x ∈ h :: t, x = e := by
          intro x hx
          have hxd : x ∈ (h :: t).dedup := List.mem_dedup.mpr hx
          rw [he] at hxd
          simpa using hxd
        have hremnil : (h :: t).filter
            (fun x => !(x == (find_fact_table p (h :: t)).getD h)) = [] := by
          rw [List.filter_eq_nil_iff]
          intro x hx
          have h1 := hall x hx
          have h2 := hall _ hstartmem
          simp [h1, h2]
        rw [hremnil] at hLen
        simp only [List.length_nil] at hLen
        apply List.eq_nil_of_length_eq_zero
        omega

/-- Witness for claim C4 on the three-table fixture. -/
theorem find_join_path_tree_invariant_witness :
    jpTri.relationships.length = jpTri.tables.length - 1 ∧
    (jpTri.relationships = [] ↔ (["a", "b", "c"] : List String).dedup.length = 1) :=
  find_join_path_tree_invariant pTri ["a", "b", "c"] jpTri (by rfl)

/-- Claim C5, counterexample: the claim states the root is the first
required table with declared role "fact" (falling back to the first table);
but `_find_fact_table` also accepts any table whose name starts with
"fact_", so the returned root is fact_x (role "dimension") although table
y is the first — and only — required table whose role is "fact". -/
theorem find_join_path_root_role_cex :
    find_join_path pRole ["fact_x", "y"] = some jpRole ∧
    jpRole.tables.head? = some "fact_x" ∧
    spec_root_by_role pRole ["fact_x", "y"] = some "y" ∧
    ("fact_x" : String) ≠ "y" := by
  refine ⟨by rfl, by rfl, by rfl, by decide⟩

/-- Claim C5, amended: for a non-empty required list, the root of the
returned join path (its tables-head) is the first required table whose
name starts with "fact_" or whose declared role is "fact", or the first
required table if there is none. -/
theorem find_join_path_root_amended (p : SchemaParser) (a : String)
    (l : List String) (jp : JoinPath)
    (hfp : find_join_path p (a :: l) = some jp) :
    jp.tables.head? = some ((find_fact_table p (a :: l)).getD a) := by
  rw [find_join_path_eq] at hfp
  have hh := joinLoop_head p.relationships _ _ _ _ jp hfp (by simp)
  simpa using hh

/-- Witness for the amended claim C5 on the prefix-named fixture. -/
theorem find_join_path_root_amended_witness :
    jpRole.tables.head? = some ((find_fact_table pRole ["fact_x", "y"]).getD "fact_x") :=
  find_join_path_root_amended pRole "fact_x" ["y"] jpRole (by rfl)

/-- Claim C6: every edge of a returned join path is either a declared
relationship kept verbatim (matched in its declared direction, join type
unchanged) or a declared relationship with its table and column endpoints
swapped and its join type set to the fixed string "INNER JOIN" (matched in
reverse: the newly attached table is the declared from-table). -/
theorem find_join_path_edge_orientation (p : SchemaParser)
    (required : List String) (jp : JoinPath)
    (hfp : find_join_path p required = some jp) :
    ∀ r ∈ jp.relationships,
      r ∈ p.relationships ∨
      ∃ d, d ∈ p.relationships ∧ r.from_table = d.to_table ∧
        r.from_column = d.to_column ∧ r.to_table = d.from_table ∧
        r.to_column = d.from_column ∧ r.join_type = "INNER JOIN" ∧
        r.description = d.description := by
  intro r hr
  cases required with
  | nil => simp [find_join_path] at hfp
  | cons h t =>
    rw [find_join_path_eq] at hfp
    have hj := joinLoop_justified p.relationships _ _ _ _ jp hfp (by simp) r hr
    rcases hj with hmem | ⟨d, hd, heq⟩
    · exact Or.inl hmem
    · subst heq
      exact Or.inr ⟨d, hd, rfl, rfl, rfl, rfl, rfl, rfl⟩

/-- Witness for claim C6: in the three-table fixture the edge attached in
reverse appears swapped with join type "INNER JOIN". -/
theorem find_join_path_edge_orientation_witness :
    swapRel relCA ∈ pTri.relationships ∨
    ∃ d, d ∈ pTri.relationships ∧ (swapRel relCA).from_table = d.to_table ∧
      (swapRel relCA).from_column = d.to_column ∧
      (swapRel relCA).to_table = d.from_table ∧
      (swapRel relCA).to_column = d.from_column ∧
      (swapRel relCA).join_type = "INNER JOIN" ∧
      (swapRel relCA).description = d.description :=
  find_join_path_edge_orientation pTri ["a", "b", "c"] jpTri (by rfl)
    (swapRel relCA) (by simp [jpTri])

/-- Claim C8, amended: the function check extracts every identifier
immediately followed by optional whitespace and an opening parenthesis,
with no keyword exclusion, and reports the first extracted name whose
uppercase form is outside the ten-name allow-list (SUM, AVG, COUNT, MIN,
MAX, DATE, DATE_TRUNC, COALESCE, YEAR, MONTH): SUBSTRING and the keyword
IN are both reported, while a query whose extracted names all lie in the
allow-list passes. -/
theorem check_functions_allowlist :
    (check_functions "SELECT id, SUBSTRING(name,1,5) FROM t LIMIT 10") =
      (false, "Forbidden SQL function detected: SUBSTRING", some "SUBSTRING") ∧
    (validate "SELECT id, SUBSTRING(name,1,5) FROM t LIMIT 10").ok = false ∧
    (check_functions "SELECT * FROM t WHERE x IN (1,2)") =
      (false, "Forbidden SQL function detected: IN", some "IN") ∧
    (check_functions "SELECT SUM(x) FROM t GROUP BY y").1 = true ∧
    (validate "SELECT SUM(x) FROM t GROUP BY y").ok = true := by
  exact ⟨rfl, rfl, rfl, rfl, rfl⟩

/-! Section: Claim C1: generate_multi_table_sql and the column-existence check -/

/-- Claim C1, counterexample: the claim states that when the LLM-returned
SQL references a column undeclared for a resolved table, the call returns
no SQL; but `generate_multi_table_sql` never invokes the column check and
returns the SQL unchanged, even though `validate_sql_columns` itself
reports the column t.b as invalid for this schema. -/
theorem generate_multi_table_sql_no_column_check_cex :
    generate_multi_table_sql pColEx "q" ["t"] "SELECT t.b FROM t LIMIT 5" =
      Except.ok "SELECT t.b FROM t LIMIT 5" ∧
    (validate_sql_columns pColEx "SELECT t.b FROM t LIMIT 5").1 = false := by
  exact ⟨by rfl, by rfl⟩

/-- Claim C1, amended: `generate_multi_table_sql` performs no
column-existence check on the LLM answer: whenever it returns SQL at all,
the result is exactly the code-fence cleanup of the raw LLM SQL,
independent of the columns it references.  The described check exists as
`SchemaParser.validate_sql_columns` but is not called. -/
theorem generate_multi_table_sql_returns_llm_sql (p : SchemaParser)
    (q : String) (llmT : List String) (llmSQL res : String)
    (h : generate_multi_table_sql p q llmT llmSQL = Except.ok res) :
    res = cleanupSQL llmSQL := by
  simp only [generate_multi_table_sql] at h
  cases hg : get_relevant_tables p [] llmT with
  | error e => rw [hg] at h; simp at h
  | ok relevant =>
    rw [hg] at h
    dsimp only at h
    by_cases h1 : relevant.isEmpty = true
    · rw [if_pos h1] at h; simp at h
    · rw [if_neg h1] at h
      by_cases h2 : ((find_join_path p relevant).isNone &&
          decide (1 < relevant.length)) = true
      · rw [if_pos h2] at h; simp at h
      · rw [if_neg h2] at h
        exact (Except.ok.inj h).symm

/-- Witness for the amended claim C1 at a concrete schema and answer. -/
theorem generate_multi_table_sql_returns_llm_sql_witness :
    ("SELECT t.a FROM t LIMIT 5" : String) =
      cleanupSQL "SELECT t.a FROM t LIMIT 5" :=
  generate_multi_table_sql_returns_llm_sql pColEx "q" ["t"]
    "SELECT t.a FROM t LIMIT 5" "SELECT t.a FROM t LIMIT 5" (by rfl)

/-! Section: Claim C9: table selection failure is explicit -/

theorem strData_append (a b : String) : (a ++ b).data = a.data ++ b.data := rfl

theorem strInfix_append_left (a b : String) (t : List Char)
    (h : List.IsInfix t b.data) : List.IsInfix t (a ++ b).data := by
  obtain ⟨u, v, huv⟩ := h
  exact ⟨a.data ++ u, v, by rw [strData_append, ← huv]; simp⟩

theorem joinComma_mem_sub :
    ∀ (l : List String) (t : String), t ∈ l →
      List.IsInfix t.data (joinComma l).data := by
  intro l
  induction l with
  | nil => intro t ht; simp at ht
  | cons s rest ih =>
    intro t ht
    cases rest with
    | nil =>
      simp only [List.mem_singleton] at ht
      subst ht
      exact ⟨[], [], by simp [joinComma]⟩
    | cons s2 rest2 =>
      rcases List.mem_cons.mp ht with ht | ht
      · subst ht
        refine ⟨[], (", " ++ joinComma (s2 :: rest2)).data, ?_⟩
        simp [joinComma, strData_append]
      · obtain ⟨u, v, huv⟩ := ih t ht
        refine ⟨(s ++ ", ").data ++ u, v, ?_⟩
        simp only [joinComma, strData_append]
        rw [← huv]
        simp

/-- Claim C9: for a multi-table schema, table selection keeps exactly the
LLM-returned names that exist in the schema; if none remains, it fails
with an error whose message names every available table (it never falls
back to using all tables); otherwise it returns the filtered list, all of
whose members are schema tables. -/
theorem get_relevant_tables_explicit_failure (p : SchemaParser)
    (actual llmT : List String) (h2 : 2 ≤ p.tables.length) :
    (llmT.filter (fun t => (lookupTable p t).isSome) = [] →
      ∃ e, get_relevant_tables p actual llmT = Except.error e ∧
        ∀ t ∈ p.tables.map Prod.fst, List.IsInfix t.data e.data) ∧
    (llmT.filter (fun t => (lookupTable p t).isSome) ≠ [] →
      get_relevant_tables p actual llmT =
        Except.ok (llmT.filter (fun t => (lookupTable p t).isSome)) ∧
      ∀ t ∈ llmT.filter (fun t => (lookupTable p t).isSome),
        (lookupTable p t).isSome = true) := by
  have hb : (p.tables.length == 1) = false := by
    have hne : p.tables.length ≠ 1 := by omega
    simpa using hne
  constructor
  · intro hnil
    refine ⟨"Cannot answer question: No matching tables found in schema. The question may require data not available in this schema. Available tables: "
      ++ joinComma (p.tables.map (fun kv => kv.1)), ?_, ?_⟩
    · simp [get_relevant_tables, hb, hnil]
    · intro t ht
      have ht2 : t ∈ p.tables.map (fun kv => kv.1) := by simpa using ht
      exact strInfix_append_left _ _ _
        (joinComma_mem_sub (p.tables.map (fun kv => kv.1)) t ht2)
  · intro hne
    have hval : (llmT.filter (fun t => (lookupTable p t).isSome)).isEmpty = false := by
      rw [List.isEmpty_eq_false]
      exact hne
    refine ⟨by simp [get_relevant_tables, hb, hval], ?_⟩
    intro t ht
    exact (List.mem_filter.mp ht).2

/-- Witness for claim C9: a bogus table name is dropped and the valid one
is kept. -/
theorem get_relevant_tables_explicit_failure_witness :
    get_relevant_tables pTwo [] ["t1", "bogus"] =
      Except.ok (["t1", "bogus"].filter (fun t => (lookupTable pTwo t).isSome)) :=
  ((get_relevant_tables_explicit_failure pTwo [] ["t1", "bogus"]
    (by decide)).2 (by decide)).1

/-! Section: Claim C10: the date converter is not idempotent -/

theorem ciMatchList_months_nil :
    ∀ nm ∈ allMonths, ciMatchList nm.1 ([] : List Char) = none := by decide

theorem month_first_char_no_match :
    ∀ c ∈ isoCharsList,
      ∀ n ∈ (['j', 'f', 'm', 'a', 's', 'o', 'n', 'd'] : List Char),
        (pyLower c == n) = false := by decide

theorem ciMatchList_month_cons_none {c : Char} {cs : List Char}
    (hm : ∀ n ∈ (['j', 'f', 'm', 'a', 's', 'o', 'n', 'd'] : List Char),
      (pyLower c == n) = false) :
    ∀ nm ∈ allMonths, ciMatchList nm.1 (c :: cs) = none := by
  have hj := hm 'j' (by decide)
  have hf := hm 'f' (by decide)
  have hm2 := hm 'm' (by decide)
  have ha := hm 'a' (by decide)
  have hs := hm 's' (by decide)
  have ho := hm 'o' (by decide)
  have hn := hm 'n' (by decide)
  have hd := hm 'd' (by decide)
  intro nm hnm
  simp only [allMonths] at hnm
  fin_cases hnm <;> simp [ciMatchList, hj, hf, hm2, ha, hs, ho, hn, hd]

theorem tryMonths_none_of (cont : String → List Char → Option (Nat × List Char))
    (l : List Char) :
    ∀ ms : List (List Char × String),
      (∀ nm ∈ ms, ciMatchList nm.1 l = none) → tryMonths cont ms l = none := by
  intro ms
  induction ms with
  | nil => intro _; rfl
  | cons nm rest ih =>
    intro hall
    obtain ⟨name, num⟩ := nm
    simp only [tryMonths]
    rw [hall (name, num) (List.mem_cons_self _ _)]
    exact ih (fun x hx => hall x (List.mem_cons_of_mem _ hx))

theorem tryMonths_none_safe (cont : String → List Char → Option (Nat × List Char))
    (l : List Char) (hl : ∀ c ∈ l, c ∈ isoCharsList) :
    tryMonths cont allMonths l = none := by
  apply tryMonths_none_of
  intro nm hnm
  cases l with
  | nil => exact ciMatchList_months_nil nm hnm
  | cons c cs =>
    exact ciMatchList_month_cons_none
      (month_first_char_no_match c (hl c (by simp))) nm hnm

theorem optDot_subset : ∀ (r : List Char) (c : Char), c ∈ optDot r → c ∈ r := by
  intro r c hc
  cases r with
  | nil => simp [optDot] at hc
  | cons h t =>
    by_cases hh : h = '.'
    · subst hh
      simp only [optDot] at hc
      exact List.mem_cons_of_mem _ hc
    · have : optDot (h :: t) = h :: t := by
        cases h2 : h :: t with
        | nil => simp at h2
        | cons a b =>
          simp only [optDot]
          cases h2
          split
          · rename_i heq
            cases heq
            exact absurd rfl hh
          · rfl
      rw [this] at hc
      exact hc

theorem matchP1attempt_none (total : Nat) (day r : List Char)
    (hr : ∀ c ∈ r, c ∈ isoCharsList) : matchP1attempt total day r = none := by
  simp only [matchP1attempt]
  by_cases hsp : (((optDot r).span isSpaceChar).1).isEmpty = true
  · rw [if_pos hsp]
  · rw [if_neg hsp]
    apply tryMonths_none_safe
    intro c hc
    have hc2 : c ∈ List.dropWhile isSpaceChar (optDot r) := by
      rw [List.span_eq_take_drop] at hc
      exact hc
    exact hr c (optDot_subset r c ((List.dropWhile_sublist isSpaceChar).subset hc2))

theorem matchP1_none :
    ∀ (prev : Option Char) (l : List Char),
      (∀ c ∈ l, c ∈ isoCharsList) → matchP1 prev l = none := by
  intro prev l hl
  simp only [matchP1]
  by_cases hb : (!(boundaryBefore prev)) = true
  · simp [hb]
  · rw [if_neg hb]
    cases l with
    | nil => rfl
    | cons d1 t =>
      cases t with
      | nil =>
        dsimp only
        by_cases hd : d1.isDigit = true
        · rw [if_pos hd]
          exact matchP1attempt_none _ [d1] [] (by simp)
        · rw [if_neg hd]
      | cons d2 rest =>
        dsimp only
        have hrest : ∀ c ∈ rest, c ∈ isoCharsList :=
          fun c hc => hl c (by simp [hc])
        have hd2rest : ∀ c ∈ d2 :: rest, c ∈ isoCharsList :=
          fun c hc => hl c (by simp at hc ⊢; tauto)
        by_cases ha : (d1.isDigit && d2.isDigit) = true
        · rw [if_pos ha, matchP1attempt_none _ [d1, d2] rest hrest]
          exact matchP1attempt_none _ [d1] (d2 :: rest) hd2rest
        · rw [if_neg ha]
          by_cases hb2 : d1.isDigit = true
          · rw [if_pos hb2]
            exact matchP1attempt_none _ [d1] (d2 :: rest) hd2rest
          · rw [if_neg hb2]

theorem matchP2_none :
    ∀ (prev : Option Char) (l : List Char),
      (∀ c ∈ l, c ∈ isoCharsList) → matchP2 prev l = none := by
  intro prev l hl
  simp only [matchP2]
  by_cases hb : (!(boundaryBefore prev)) = true
  · simp [hb]
  · rw [if_neg hb]
    exact tryMonths_none_safe _ l hl

theorem digits12Dot_none (l : List Char) (hl : ∀ c ∈ l, c ∈ isoCharsList) :
    digits12Dot l = none := by
  cases l with
  | nil => rfl
  | cons d1 t =>
    cases t with
    | nil => rfl
    | cons d2 rest =>
      have hd2 : (d2 == '.') = false := by
        have hmem := hl d2 (by simp)
        revert hmem
        have : ∀ c ∈ isoCharsList, (c == '.') = false := by decide
        intro hmem
        exact this d2 hmem
      simp only [digits12Dot]
      by_cases h1 : d1.isDigit = true
      · rw [if_pos h1]
        by_cases h2 : d2.isDigit = true
        · rw [if_pos h2]
          cases rest with
          | nil => rfl
          | cons c3 r3 =>
            have hc3 : (c3 = '.') → False := by
              intro hc
              subst hc
              have hmem := hl '.' (by simp)
              exact absurd hmem (by decide)
            split
            · rename_i r heq
              injection heq with h3 _
              exact (hc3 h3).elim
            · rfl
        · rw [if_neg h2, if_neg (by simp [hd2])]
      · rw [if_neg h1]

theorem matchP3_none :
    ∀ (prev : Option Char) (l : List Char),
      (∀ c ∈ l, c ∈ isoCharsList) → matchP3 prev l = none := by
  intro prev l hl
  simp only [matchP3]
  by_cases hb : (!(boundaryBefore prev)) = true
  · simp [hb]
  · rw [if_neg hb, digits12Dot_none l hl]

theorem subScan_id (matcher : Option Char → List Char → Option (Nat × List Char))
    (hm : ∀ (prev : Option Char) (l : List Char),
      (∀ c ∈ l, c ∈ isoCharsList) → matcher prev l = none) :
    ∀ (fuel : Nat) (prev : Option Char) (l : List Char),
      (∀ c ∈ l, c ∈ isoCharsList) → subScan matcher fuel prev l = l := by
  intro fuel
  induction fuel with
  | zero => intro prev l _; cases l <;> rfl
  | succ n ih =>
    intro prev l hl
    cases l with
    | nil => rfl
    | cons c cs =>
      simp only [subScan, hm prev (c :: cs) hl]
      exact congrArg (c :: ·) (ih (some c) cs (fun x hx => hl x (by simp [hx])))

/-- Claim C10, counterexample: the claim states the conversion is
idempotent, but on "1.2.2023.4.2024" one application yields
"2023-02-01.4.2024" and a second application converts further to
"2023-02-2024-04-01" (the numeric pattern scans non-overlapping matches,
and the first replacement exposes a new match). -/
theorem date_conversion_not_idempotent_cex :
    extract_and_convert_dates (extract_and_convert_dates "1.2.2023.4.2024") ≠
      extract_and_convert_dates "1.2.2023.4.2024" := by decide

/-- Claim C10, amended: `extract_and_convert_dates` is not idempotent in
general, but text built only from digits, hyphens and spaces — in
particular text containing only ISO-format dates — passes through
unchanged (so a second application changes nothing on such text). -/
theorem extract_and_convert_dates_safe (s : String)
    (h : ∀ c ∈ s.data, c ∈ isoCharsList) :
    extract_and_convert_dates s = s := by
  unfold extract_and_convert_dates pySub
  rw [subScan_id matchP1 matchP1_none s.data.length none s.data h]
  rw [subScan_id matchP2 matchP2_none s.data.length none s.data h]
  rw [subScan_id matchP3 matchP3_none s.data.length none s.data h]

/-- Witness for the amended claim C10: an ISO date passes through
unchanged. -/
theorem extract_and_convert_dates_safe_witness :
    extract_and_convert_dates "2023-01-15" = "2023-01-15" :=
  extract_and_convert_dates_safe "2023-01-15" (by decide)
